import Mathlib

/-!
Verification development for the perspektiv actor/subscription core.

Shallow embedding of:
  * `src/threlm/src/lib.rs` — the `Threlm` model owner, `Actor` handles,
    `Actor::tell` and the glib idle-queue delivery of messages;
  * `src/src/subscribable.rs` — the subscription-worker loop
    (`Subscribable::subscribe`) with its 3-strikes / fatal-error policy.

Theorems at the end settle the frozen claims about this code.
-/

namespace Perspektiv

/-! ## Model of `src/src/subscribable.rs` -/

/-- Mirrors `subscribable::Error`: a human-readable message plus a fatal flag. -/
structure Error where
  message : String
  fatal : Bool
deriving DecidableEq

/-- One result of invoking the poll closure `f()`, whose Rust type is
`Result<Option<ui::Msg>, Error>`: `Ok(Some(msg))`, `Ok(None)`, or `Err(e)`. -/
inductive PollResult (Msg : Type) where
  | ok : Option Msg → PollResult Msg
  | err : Error → PollResult Msg
deriving DecidableEq

/-- Why the worker thread returned (which `return` statement fired in
`Subscribable::subscribe`), or that it is still in the loop. -/
inductive ExitReason where
  | constructionFailure
  | deadActor
  | fatalError
  | thirdStrike
deriving DecidableEq

/-- Worker status after consuming a finite prefix of poll results: still in the
loop (carrying the current `err_count` and the index of the next `tell` call),
or returned with a reason. -/
inductive Outcome where
  | running : Nat → Nat → Outcome
  | terminated : ExitReason → Outcome
deriving DecidableEq

/-- Observable record of one worker run: the messages successfully handed to
`tell` (enqueued), how many times the poll closure was invoked, how many times
`tell` was called, and the final status. -/
structure WorkerRun (Msg : Type) where
  delivered : List Msg
  polls : Nat
  tells : Nat
  outcome : Outcome
deriving DecidableEq

/-- The worker loop of `Subscribable::subscribe` (lines 59–96), run over a
finite trace of poll results.  The stateful poll closure is modelled by the
list of results it would return; `aliveAt n` tells whether the model is still
alive at the worker's n-th `tell` call (`Actor::tell` succeeds iff the weak
reference upgrades).  State threaded through the loop: the trace, `err_count`,
and the `tell` index.

  * `Ok(Some(msg))`: set `err_count = 0`, call `actor.tell(msg)`; if `tell`
    errs, `return` (dead actor), else continue looping.
  * `Ok(None)`: `continue` — `err_count` unchanged, no `tell`.
  * `Err(e)` fatal: `return` immediately.
  * `Err(e)` non-fatal: `err_count += 1`; if `err_count >= 3`, `return`,
    else continue looping. -/
def runWorkerAux {Msg : Type} (aliveAt : Nat → Bool) :
    List (PollResult Msg) → Nat → Nat → WorkerRun Msg
  | [], c, i => ⟨[], 0, 0, Outcome.running c i⟩
  | PollResult.ok (some m) :: rest, _, i =>
      if aliveAt i then
        let r := runWorkerAux aliveAt rest 0 (i + 1)
        ⟨m :: r.delivered, r.polls + 1, r.tells + 1, r.outcome⟩
      else ⟨[], 1, 1, Outcome.terminated ExitReason.deadActor⟩
  | PollResult.ok none :: rest, c, i =>
      let r := runWorkerAux aliveAt rest c i
      ⟨r.delivered, r.polls + 1, r.tells, r.outcome⟩
  | PollResult.err e :: rest, c, i =>
      if e.fatal then ⟨[], 1, 0, Outcome.terminated ExitReason.fatalError⟩
      else if c + 1 ≥ 3 then ⟨[], 1, 0, Outcome.terminated ExitReason.thirdStrike⟩
      else
        let r := runWorkerAux aliveAt rest (c + 1) i
        ⟨r.delivered, r.polls + 1, r.tells, r.outcome⟩

/-- `Subscribable::subscribe` (lines 40–99): the spawned thread first runs the
poll factory; on `Err` it logs and returns before entering the loop, on `Ok` it
runs the loop with `err_count = 0`.  The factory is modelled by its result:
either an error string or the trace of results its closure would produce. -/
def subscribe {Msg : Type} (factoryResult : Except String (List (PollResult Msg)))
    (aliveAt : Nat → Bool) : WorkerRun Msg :=
  match factoryResult with
  | Except.error _ => ⟨[], 0, 0, Outcome.terminated ExitReason.constructionFailure⟩
  | Except.ok trace => runWorkerAux aliveAt trace 0 0

/-! ## Model of `src/threlm/src/lib.rs` -/

/-- Home-thread state of a `Threlm<C>` owner together with the glib idle queue.

  * `model`: `some c` while the strong `Arc` behind the `Threlm` is alive
    (weak upgrades succeed), `none` after the owner is dropped;
  * `queue`: the messages sitting in idle callbacks added by `glib::idle_add`,
    oldest first (glib dispatches idle sources in submission order, which is
    the ordering assumption the spec grants the dispatcher);
  * `applied`: history of messages passed to `Model::update`, in invocation
    order;
  * `accepted`: history of messages for which `Actor::tell` returned `Ok`.

`applied` and `accepted` are history variables recording observable events;
they do not influence behaviour. -/
structure ThrelmState (M Msg : Type) where
  model : Option M
  queue : List Msg
  applied : List Msg
  accepted : List Msg
deriving DecidableEq

/-- `Actor::tell` (lines 128–145): if the weak reference no longer upgrades,
return `Err` at once and do nothing else; otherwise schedule an idle callback
carrying the message (append to the queue) and return `Ok`. -/
def Actor.tell {M Msg : Type} (s : ThrelmState M Msg) (m : Msg) :
    Except String (ThrelmState M Msg) :=
  match s.model with
  | none => Except.error "The referenced model has already been deallocated"
  | some _ =>
      Except.ok { s with queue := s.queue ++ [m], accepted := s.accepted ++ [m] }

/-- Home-thread-observable events of the threlm core. -/
inductive Event (Msg : Type) where
  | tellEv : Msg → Event Msg
  | runIdle : Event Msg
  | destroy : Event Msg
  | syncUpdate : Msg → Event Msg
deriving DecidableEq

def Event.isSync {Msg : Type} : Event Msg → Bool
  | Event.syncUpdate _ => true
  | _ => false

def Event.isDestroy {Msg : Type} : Event Msg → Bool
  | Event.destroy => true
  | _ => false

/-- One step of the threlm core, parameterised by the model's update function
`u` (the `Model::update` implementation, returning the new model state).

  * `tellEv m`: some thread calls `tell(m)`; on `Err` nothing changes.
  * `runIdle`: the main loop runs the oldest queued idle callback (lines
    136–142): the callback re-upgrades the weak reference; on success it calls
    `update`, otherwise it silently drops the message and just returns
    `Continue(false)`.
  * `destroy`: the `Threlm` owner is dropped; the strong `Arc` disappears.
  * `syncUpdate m`: `Threlm::update` (lines 96–99) is called on the owner:
    `update` runs immediately, no queueing.  Requires the owner to exist. -/
def step {M Msg : Type} (u : M → Msg → M) (s : ThrelmState M Msg) :
    Event Msg → ThrelmState M Msg
  | Event.tellEv m =>
      match Actor.tell s m with
      | Except.ok s' => s'
      | Except.error _ => s
  | Event.runIdle =>
      match s.queue with
      | [] => s
      | m :: rest =>
          match s.model with
          | some c =>
              { s with model := some (u c m), queue := rest,
                       applied := s.applied ++ [m] }
          | none => { s with queue := rest }
  | Event.destroy => { s with model := none }
  | Event.syncUpdate m =>
      match s.model with
      | some c => { s with model := some (u c m), applied := s.applied ++ [m] }
      | none => s

/-- Run a sequence of events from a state. -/
def run {M Msg : Type} (u : M → Msg → M) (s : ThrelmState M Msg) :
    List (Event Msg) → ThrelmState M Msg
  | [] => s
  | e :: es => run u (step u s e) es

/-- Fresh owner state right after `Threlm::new`: model alive, nothing queued,
no history. -/
def initState {M Msg : Type} (m0 : M) : ThrelmState M Msg :=
  ⟨some m0, [], [], []⟩

/-- Result of `Threlm::new` (lines 72–82): either the assertion
`assert!(gtk::is_initialized_main_thread())` fails (panic) or the owner is
built around the given model. -/
inductive NewResult (M : Type) where
  | panicked : String → NewResult M
  | ok : M → NewResult M
deriving DecidableEq

/-- `Threlm::new`: `isMainThread` is the value of the external call
`gtk::is_initialized_main_thread()` — whether the calling thread is the
initialised GTK main (home) thread.  The subsequent `connect` call on the
model is irrelevant to the claims and not modelled. -/
def Threlm.new {M : Type} (isMainThread : Bool) (inner : M) : NewResult M :=
  if isMainThread then NewResult.ok inner
  else NewResult.panicked "assertion failed: gtk is_initialized_main_thread"

/-! ## Claims about the subscription worker -/

/-- C7: when the poll factory fails, the worker thread exits before the loop:
the poll closure is never invoked, `tell` is never called, no message is
delivered, and the worker is terminated (construction failure). -/
theorem construction_failure_isolated {Msg : Type} (msg : String)
    (aliveAt : Nat → Bool) :
    subscribe (Except.error msg : Except String (List (PollResult Msg))) aliveAt
      = ⟨[], 0, 0, Outcome.terminated ExitReason.constructionFailure⟩ := rfl

/-- C3: with a live model, a trace of exactly `k` consecutive non-fatal errors
followed by one successful poll leaves the worker alive (back in the loop, with
the message delivered and the counter reset) when `k < 3`, and terminates it at
exactly the third error — three poll invocations, nothing delivered — when
`k ≥ 3`. -/
theorem three_strikes_policy {Msg : Type} (k : Nat) (m : Msg) (s : String) :
    if k < 3 then
      runWorkerAux (fun _ => true)
          (List.replicate k (PollResult.err ⟨s, false⟩) ++ [PollResult.ok (some m)]) 0 0
        = ⟨[m], k + 1, 1, Outcome.running 0 1⟩
    else
      runWorkerAux (fun _ => true)
          (List.replicate k (PollResult.err ⟨s, false⟩) ++ [PollResult.ok (some m)]) 0 0
        = ⟨[], 3, 0, Outcome.terminated ExitReason.thirdStrike⟩ := by
  match k with
  | 0 => simp [runWorkerAux]
  | 1 => simp [runWorkerAux]
  | 2 => simp [runWorkerAux]
  | n + 3 =>
      have h3 : ¬ (n + 3) < 3 := by omega
      simp [h3, List.replicate_succ, runWorkerAux]

/-- C2 counterexample: an `Ok(None)` poll result does not reset the
consecutive-error counter and does not call `tell` — with the counter at 1, the
worker stays at 1 with zero `tell` calls, contradicting the claim that every
`Ok` poll result resets the counter to 0 and forwards a message.  Consequently
the trace non-fatal error, `Ok(None)`, non-fatal error, non-fatal error reaches
the 3-strikes termination even though an `Ok` intervened. -/
theorem ok_none_does_not_reset :
    runWorkerAux (fun _ => true) [PollResult.ok (none : Option Nat)] 1 0
        = ⟨[], 1, 0, Outcome.running 1 0⟩ ∧
    ¬ ((runWorkerAux (fun _ => true) [PollResult.ok (none : Option Nat)] 1 0).outcome
          = Outcome.running 0 0 ∧
       (runWorkerAux (fun _ => true) [PollResult.ok (none : Option Nat)] 1 0).tells = 1) ∧
    (runWorkerAux (fun _ => true)
        [PollResult.err ⟨"e", false⟩, PollResult.ok (none : Option Nat),
         PollResult.err ⟨"e", false⟩, PollResult.err ⟨"e", false⟩] 0 0).outcome
      = Outcome.terminated ExitReason.thirdStrike := by
  refine ⟨rfl, ?_, rfl⟩
  intro h
  exact absurd h.2 (by decide)

/-- C2 amended: a poll result `Ok(Some(m))` with the model alive resets the
consecutive-error counter to 0, calls `tell` once forwarding `m` (delivered at
the head), and returns to the loop; an `Ok(None)` result leaves the counter and
the delivery record unchanged and calls `tell` zero times. -/
theorem ok_some_resets_and_delivers {Msg : Type} (aliveAt : Nat → Bool)
    (m : Msg) (rest : List (PollResult Msg)) (c i : Nat)
    (h : aliveAt i = true) :
    runWorkerAux aliveAt (PollResult.ok (some m) :: rest) c i
        = ⟨m :: (runWorkerAux aliveAt rest 0 (i + 1)).delivered,
           (runWorkerAux aliveAt rest 0 (i + 1)).polls + 1,
           (runWorkerAux aliveAt rest 0 (i + 1)).tells + 1,
           (runWorkerAux aliveAt rest 0 (i + 1)).outcome⟩ ∧
    runWorkerAux aliveAt (PollResult.ok none :: rest) c i
        = ⟨(runWorkerAux aliveAt rest c i).delivered,
           (runWorkerAux aliveAt rest c i).polls + 1,
           (runWorkerAux aliveAt rest c i).tells,
           (runWorkerAux aliveAt rest c i).outcome⟩ := by
  constructor
  · simp [runWorkerAux, h]
  · simp [runWorkerAux]

/-- Witness for `ok_some_resets_and_delivers` at a concrete input. -/
theorem ok_some_resets_and_delivers_wit :
    runWorkerAux (fun _ => true) [PollResult.ok (some (5 : Nat))] 2 0
        = ⟨[5], 1, 1, Outcome.running 0 1⟩ ∧
    runWorkerAux (fun _ => true) [PollResult.ok (none : Option Nat)] 2 0
        = ⟨[], 1, 0, Outcome.running 2 0⟩ :=
  ok_some_resets_and_delivers (fun _ => true) 5 [] 2 0 rfl

/-- Compositionality of the worker loop: if the worker is still in the loop
after a prefix of poll results, running the concatenation continues from the
reached counter and tell index, concatenating the observations. -/
theorem runWorkerAux_append {Msg : Type} (aliveAt : Nat → Bool)
    (pre post : List (PollResult Msg)) (c i c' i' : Nat)
    (h : (runWorkerAux aliveAt pre c i).outcome = Outcome.running c' i') :
    runWorkerAux aliveAt (pre ++ post) c i
      = ⟨(runWorkerAux aliveAt pre c i).delivered
            ++ (runWorkerAux aliveAt post c' i').delivered,
         (runWorkerAux aliveAt pre c i).polls
            + (runWorkerAux aliveAt post c' i').polls,
         (runWorkerAux aliveAt pre c i).tells
            + (runWorkerAux aliveAt post c' i').tells,
         (runWorkerAux aliveAt post c' i').outcome⟩ := by
  induction pre generalizing c i with
  | nil =>
      simp only [runWorkerAux] at h
      cases h
      simp [runWorkerAux]
  | cons a pre ih =>
      rw [List.cons_append]
      match a with
      | PollResult.ok (some m) =>
          by_cases ha : aliveAt i = true
          · simp only [runWorkerAux, if_pos ha] at h ⊢
            rw [ih 0 (i + 1) h]
            simp [Nat.add_right_comm]
          · simp only [runWorkerAux, if_neg ha] at h
            exact absurd h (by simp)
      | PollResult.ok none =>
          simp only [runWorkerAux] at h ⊢
          rw [ih c i h]
          simp [Nat.add_right_comm]
      | PollResult.err e =>
          by_cases hf : e.fatal = true
          · simp only [runWorkerAux, if_pos hf] at h
            exact absurd h (by simp)
          · by_cases hc : c + 1 ≥ 3
            · simp only [runWorkerAux, if_neg hf, if_pos hc] at h
              exact absurd h (by simp)
            · simp only [runWorkerAux, if_neg hf, if_neg hc] at h ⊢
              rw [ih (c + 1) i h]
              simp [Nat.add_right_comm]

/-- C4: a single fatal error terminates the worker immediately, whatever the
current value of the consecutive-error counter: after any non-terminating
prefix, the trace extended with a fatal error and arbitrary further results
delivers exactly the messages of the prefix, performs exactly one more poll, no
further `tell`, and terminates with the fatal-error reason. -/
theorem fatal_short_circuit {Msg : Type} (aliveAt : Nat → Bool)
    (pre rest : List (PollResult Msg)) (s : String) (c' i' : Nat)
    (h : (runWorkerAux aliveAt pre 0 0).outcome = Outcome.running c' i') :
    runWorkerAux aliveAt (pre ++ PollResult.err ⟨s, true⟩ :: rest) 0 0
      = ⟨(runWorkerAux aliveAt pre 0 0).delivered,
         (runWorkerAux aliveAt pre 0 0).polls + 1,
         (runWorkerAux aliveAt pre 0 0).tells,
         Outcome.terminated ExitReason.fatalError⟩ := by
  rw [runWorkerAux_append aliveAt pre _ 0 0 c' i' h]
  simp [runWorkerAux]

/-- Witness for `fatal_short_circuit`: one delivered message, then a fatal
error with the counter already at 2 — immediate termination, the trailing
successful poll never happens. -/
theorem fatal_short_circuit_wit :
    runWorkerAux (fun _ => true)
        ([PollResult.ok (some (1 : Nat)), PollResult.err ⟨"e", false⟩,
          PollResult.err ⟨"e", false⟩]
          ++ PollResult.err ⟨"boom", true⟩ :: [PollResult.ok (some 9)]) 0 0
      = ⟨(runWorkerAux (fun _ => true)
            [PollResult.ok (some (1 : Nat)), PollResult.err ⟨"e", false⟩,
             PollResult.err ⟨"e", false⟩] 0 0).delivered,
         (runWorkerAux (fun _ => true)
            [PollResult.ok (some (1 : Nat)), PollResult.err ⟨"e", false⟩,
             PollResult.err ⟨"e", false⟩] 0 0).polls + 1,
         (runWorkerAux (fun _ => true)
            [PollResult.ok (some (1 : Nat)), PollResult.err ⟨"e", false⟩,
             PollResult.err ⟨"e", false⟩] 0 0).tells,
         Outcome.terminated ExitReason.fatalError⟩ :=
  fatal_short_circuit (fun _ => true)
    [PollResult.ok (some 1), PollResult.err ⟨"e", false⟩, PollResult.err ⟨"e", false⟩]
    [PollResult.ok (some 9)] "boom" 2 1 rfl

/-! ## Claims spanning `Actor::tell` and the worker -/

/-- C5: (a) when the model has been deallocated, `Actor::tell` returns the
dead-model error; (b) for such a `tell`, the step function leaves the state
unchanged — nothing is enqueued; (c) a worker whose `tell` fails terminates at
once with the dead-actor reason: one poll, one failed `tell`, nothing
delivered, and the remaining trace never polled — no panic, no retry. -/
theorem dead_handle_graceful_exit {M Msg : Type} :
    (∀ (s : ThrelmState M Msg) (m : Msg), s.model = none →
        Actor.tell s m
          = Except.error "The referenced model has already been deallocated") ∧
    (∀ (u : M → Msg → M) (s : ThrelmState M Msg) (m : Msg), s.model = none →
        step u s (Event.tellEv m) = s) ∧
    (∀ (aliveAt : Nat → Bool) (m : Msg) (rest : List (PollResult Msg)) (c i : Nat),
        aliveAt i = false →
        runWorkerAux aliveAt (PollResult.ok (some m) :: rest) c i
          = ⟨[], 1, 1, Outcome.terminated ExitReason.deadActor⟩) := by
  refine ⟨?_, ?_, ?_⟩
  · intro s m hs
    simp [Actor.tell, hs]
  · intro u s m hs
    simp [step, Actor.tell, hs]
  · intro aliveAt m rest c i hi
    simp [runWorkerAux, hi]

/-- Witness for `dead_handle_graceful_exit` at concrete inputs. -/
theorem dead_handle_graceful_exit_wit :
    Actor.tell (⟨none, [], [], []⟩ : ThrelmState Nat Nat) 7
        = Except.error "The referenced model has already been deallocated" ∧
    step (fun a b => a + b) (⟨none, [], [], []⟩ : ThrelmState Nat Nat)
        (Event.tellEv 7) = ⟨none, [], [], []⟩ ∧
    runWorkerAux (fun _ => false) [PollResult.ok (some (7 : Nat)),
        PollResult.ok (some 8)] 2 0
      = ⟨[], 1, 1, Outcome.terminated ExitReason.deadActor⟩ :=
  ⟨(@dead_handle_graceful_exit Nat Nat).1 ⟨none, [], [], []⟩ 7 rfl,
   (@dead_handle_graceful_exit Nat Nat).2.1 (fun a b => a + b) ⟨none, [], [], []⟩ 7 rfl,
   (@dead_handle_graceful_exit Nat Nat).2.2 (fun _ => false) 7
     [PollResult.ok (some 8)] 2 0 rfl⟩

/-! ## Claims about the threlm home-thread core -/

/-- C9: when the queued idle callback runs after the model has been destroyed,
the weak upgrade fails and the callback is a silent no-op on everything except
the queue: the message is dequeued and discarded, `update` is not invoked
(`applied` unchanged), no error is reported, and the (absent) model is never
touched. -/
theorem dead_model_silent_discard {M Msg : Type} (u : M → Msg → M) (m : Msg)
    (q a acc : List Msg) :
    step u (⟨none, m :: q, a, acc⟩ : ThrelmState M Msg) Event.runIdle
      = ⟨none, q, a, acc⟩ := rfl

/-- C10: `Threlm::update` applies the contained model's update synchronously,
exactly once, in the same step — `applied` gains exactly the one message and
the model advances — while the idle queue is left untouched (the dispatcher is
bypassed), so pending told messages are overtaken by it. -/
theorem sync_update_bypasses_queue {M Msg : Type} (u : M → Msg → M) (c : M)
    (m : Msg) (q a acc : List Msg) :
    step u (⟨some c, q, a, acc⟩ : ThrelmState M Msg) (Event.syncUpdate m)
      = ⟨some (u c m), q, a ++ [m], acc⟩ := rfl

/-- C8: `Threlm::new` asserts `gtk::is_initialized_main_thread()`: called off
the home thread the assertion fires (panic); called on the home thread the
assertion never fires and the owner is constructed. -/
theorem new_asserts_home_thread {M : Type} (inner : M) :
    Threlm.new false inner
        = NewResult.panicked "assertion failed: gtk is_initialized_main_thread" ∧
    Threlm.new true inner = NewResult.ok inner := ⟨rfl, rfl⟩

/-- Dispatcher accounting invariant: while the model is alive, the messages
already applied followed by the messages still queued are exactly the messages
accepted by `tell`, in order; once the model is gone, the applied messages are
a prefix of the accepted ones (later queue entries are discarded, never
reordered). -/
def QueueInv {M Msg : Type} (s : ThrelmState M Msg) : Prop :=
  match s.model with
  | some _ => s.applied ++ s.queue = s.accepted
  | none => ∃ rest, s.applied ++ rest = s.accepted

theorem step_preserves_QueueInv {M Msg : Type} (u : M → Msg → M)
    (s : ThrelmState M Msg) (e : Event Msg)
    (hs : QueueInv s) (he : e.isSync = false) : QueueInv (step u s e) := by
  obtain ⟨mo, q, a, acc⟩ := s
  cases e with
  | tellEv m =>
      cases mo with
      | none => simpa [step, Actor.tell] using hs
      | some c =>
          simp only [QueueInv, step, Actor.tell] at hs ⊢
          rw [← List.append_assoc, hs]
  | runIdle =>
      cases q with
      | nil => simpa [step] using hs
      | cons m rest =>
          cases mo with
          | some c =>
              simp only [QueueInv, step] at hs ⊢
              rw [← hs]
              simp
          | none =>
              simp only [QueueInv, step] at hs ⊢
              exact hs
  | destroy =>
      cases mo with
      | some c =>
          simp only [QueueInv, step] at hs ⊢
          exact ⟨q, hs⟩
      | none => simpa [step] using hs
  | syncUpdate m => simp [Event.isSync] at he

theorem run_preserves_QueueInv {M Msg : Type} (u : M → Msg → M)
    (s : ThrelmState M Msg) (tr : List (Event Msg))
    (hs : QueueInv s) (htr : tr.all (fun e => !e.isSync) = true) :
    QueueInv (run u s tr) := by
  induction tr generalizing s with
  | nil => exact hs
  | cons e es ih =>
      simp only [List.all_cons, Bool.and_eq_true] at htr
      exact ih (step u s e)
        (step_preserves_QueueInv u s e hs (by simpa using htr.1)) htr.2

/-- C1: over any sequence of home-thread events made of `tell` submissions,
idle-queue drains and owner destruction (no direct synchronous updates — the
dispatcher, modelled as the FIFO queue glib's idle sources provide, preserves
submission order), the messages observed by the model's `update` are a prefix
of the messages accepted by `tell`, in exactly the order the `tell` calls were
made. -/
theorem fifo_per_origin {M Msg : Type} (u : M → Msg → M) (m0 : M)
    (tr : List (Event Msg)) (htr : tr.all (fun e => !e.isSync) = true) :
    ∃ rest, (run u (initState m0) tr).applied ++ rest
              = (run u (initState m0) tr).accepted := by
  have h := run_preserves_QueueInv u (initState m0) tr
    (by simp [QueueInv, initState]) htr
  rcases hmod : (run u (initState m0) tr).model with _ | c
  · simp only [QueueInv, hmod] at h
    exact h
  · simp only [QueueInv, hmod] at h
    exact ⟨(run u (initState m0) tr).queue, h⟩

/-- Witness for `fifo_per_origin`: two tells, one drain, a destroy, a rejected
tell, one discarding drain. -/
theorem fifo_per_origin_wit :
    ∃ rest,
      (run (fun a b : Nat => a + b) (initState 0)
          [Event.tellEv 1, Event.tellEv 2, Event.runIdle, Event.destroy,
           Event.tellEv 3, Event.runIdle]).applied ++ rest
        = (run (fun a b : Nat => a + b) (initState 0)
            [Event.tellEv 1, Event.tellEv 2, Event.runIdle, Event.destroy,
             Event.tellEv 3, Event.runIdle]).accepted :=
  fifo_per_origin (fun a b => a + b) 0
    [Event.tellEv 1, Event.tellEv 2, Event.runIdle, Event.destroy,
     Event.tellEv 3, Event.runIdle] (by decide)

theorem run_append {M Msg : Type} (u : M → Msg → M) (s : ThrelmState M Msg)
    (t1 t2 : List (Event Msg)) :
    run u s (t1 ++ t2) = run u (run u s t1) t2 := by
  induction t1 generalizing s with
  | nil => rfl
  | cons e es ih =>
      simp only [List.cons_append, run]
      exact ih (step u s e)

/-- Draining as many idle callbacks as there are queued messages, with the
model alive, applies every queued message in order and empties the queue. -/
theorem drain_replicate {M Msg : Type} (u : M → Msg → M) (c : M)
    (q a acc : List Msg) :
    run u (⟨some c, q, a, acc⟩ : ThrelmState M Msg)
        (List.replicate q.length Event.runIdle)
      = ⟨some (q.foldl u c), [], a ++ q, acc⟩ := by
  induction q generalizing c a with
  | nil => simp [run]
  | cons m rest ih =>
      simp only [List.length_cons, List.replicate_succ, run, step]
      rw [ih (u c m) (a ++ [m])]
      simp

/-- While the owner is never destroyed (and no synchronous updates occur), the
model stays alive and the accounting `applied ++ queue = accepted` holds. -/
theorem run_no_destroy_alive {M Msg : Type} (u : M → Msg → M)
    (tr : List (Event Msg)) :
    tr.all (fun e => !e.isDestroy && !e.isSync) = true →
    ∀ (c : M) (q a acc : List Msg), a ++ q = acc →
      ∃ c', (run u (⟨some c, q, a, acc⟩ : ThrelmState M Msg) tr).model = some c' ∧
        (run u (⟨some c, q, a, acc⟩ : ThrelmState M Msg) tr).applied
            ++ (run u (⟨some c, q, a, acc⟩ : ThrelmState M Msg) tr).queue
          = (run u (⟨some c, q, a, acc⟩ : ThrelmState M Msg) tr).accepted := by
  induction tr with
  | nil =>
      intro _ c q a acc hinv
      exact ⟨c, rfl, hinv⟩
  | cons e es ih =>
      intro htr c q a acc hinv
      simp only [List.all_cons, Bool.and_eq_true] at htr
      obtain ⟨⟨hd, hy⟩, hes⟩ := htr
      cases e with
      | tellEv m =>
          simp only [run, step, Actor.tell]
          exact ih hes c (q ++ [m]) a (acc ++ [m])
            (by rw [← List.append_assoc, hinv])
      | runIdle =>
          cases q with
          | nil =>
              simp only [run, step]
              exact ih hes c [] a acc hinv
          | cons m rest =>
              simp only [run, step]
              exact ih hes (u c m) rest (a ++ [m]) acc
                (by rw [← hinv]; simp)
      | destroy => simp [Event.isDestroy] at hd
      | syncUpdate m => simp [Event.isSync] at hy

/-- C6 counterexample: a message accepted by `tell` (`tell` returned `Ok` and
the message was queued) for which `update` runs zero times — the owner is
destroyed before the queued idle callback fires, so the callback's weak
upgrade fails and the message is discarded.  `tell` returning `Ok` therefore
does not guarantee exactly one `update` invocation. -/
theorem accepted_message_dropped_after_destroy :
    (run (fun a b : Nat => a + b) (initState 0)
        [Event.tellEv 5, Event.destroy, Event.runIdle]).accepted = [5] ∧
    (run (fun a b : Nat => a + b) (initState 0)
        [Event.tellEv 5, Event.destroy, Event.runIdle]).applied = [] ∧
    ¬ (run (fun a b : Nat => a + b) (initState 0)
        [Event.tellEv 5, Event.destroy, Event.runIdle]).applied.count 5 = 1 := by
  refine ⟨rfl, rfl, ?_⟩
  decide

/-- C6 amended: in any run in which the owner is not destroyed (and updates go
through the queue only), every message accepted by `tell` sits in the
applied-history-then-queue exactly once, in acceptance order; after draining
the queue, the applied history equals the accepted history — each accepted
message is passed to `update` exactly once, and never more than once. -/
theorem accepted_applied_exactly_once {M Msg : Type} (u : M → Msg → M)
    (m0 : M) (tr : List (Event Msg))
    (htr : tr.all (fun e => !e.isDestroy && !e.isSync) = true) :
    (run u (initState m0) tr).applied ++ (run u (initState m0) tr).queue
        = (run u (initState m0) tr).accepted ∧
    (run u (initState m0)
        (tr ++ List.replicate (run u (initState m0) tr).queue.length
                  Event.runIdle)).applied
      = (run u (initState m0) tr).accepted := by
  obtain ⟨c', hc', hinv⟩ :=
    run_no_destroy_alive u tr htr m0 [] [] [] rfl
  refine ⟨hinv, ?_⟩
  rw [run_append]
  rcases hE : run u (initState m0) tr with ⟨mo, q, a, acc⟩
  simp only [initState] at hE
  rw [hE] at hc' hinv
  simp only at hc' hinv
  cases hc'
  rw [drain_replicate]
  simpa using hinv

/-- Witness for `accepted_applied_exactly_once` at a concrete trace. -/
theorem accepted_applied_exactly_once_wit :
    (run (fun a b : Nat => a + b) (initState 0)
        [Event.tellEv 1, Event.tellEv 2, Event.runIdle]).applied
        ++ (run (fun a b : Nat => a + b) (initState 0)
            [Event.tellEv 1, Event.tellEv 2, Event.runIdle]).queue
      = (run (fun a b : Nat => a + b) (initState 0)
          [Event.tellEv 1, Event.tellEv 2, Event.runIdle]).accepted ∧
    (run (fun a b : Nat => a + b) (initState 0)
        ([Event.tellEv 1, Event.tellEv 2, Event.runIdle]
          ++ List.replicate (run (fun a b : Nat => a + b) (initState 0)
                [Event.tellEv 1, Event.tellEv 2, Event.runIdle]).queue.length
              Event.runIdle)).applied
      = (run (fun a b : Nat => a + b) (initState 0)
          [Event.tellEv 1, Event.tellEv 2, Event.runIdle]).accepted :=
  accepted_applied_exactly_once (fun a b => a + b) 0
    [Event.tellEv 1, Event.tellEv 2, Event.runIdle] (by decide)

end Perspektiv
